import Mathlib

/-!
Verification development for the BOBO cloud-compiler workspace-sync
subsystem (src/main.js, src/renderer.js).

JavaScript strings are embedded as Lean `String`s; the JS string methods
used by the source (`startsWith`, `endsWith`, `includes`, `split`,
`toLowerCase`, `join`, `replace`) are given as structural functions over
`String.data`, so every definition evaluates inside the kernel.
-/

/-- The char list `pat` heads the char list `s` (JS `s.startsWith(pat)`). -/
def listStarts : List Char → List Char → Bool
  | [], _ => true
  | _ :: _, [] => false
  | p :: ps, c :: cs => p == c && listStarts ps cs

/-- The char list `pat` occurs contiguously in `s` (JS `s.includes(pat)`). -/
def listHasSub (pat : List Char) : List Char → Bool
  | [] => listStarts pat []
  | c :: cs => listStarts pat (c :: cs) || listHasSub pat cs

/-- JS `s.startsWith(pat)`. -/
def jsStartsWith (s pat : String) : Bool := listStarts pat.data s.data

/-- JS `s.endsWith(pat)`. -/
def jsEndsWith (s pat : String) : Bool := listStarts pat.data.reverse s.data.reverse

/-- JS `s.includes(pat)`. -/
def jsIncludes (s pat : String) : Bool := listHasSub pat.data s.data

/-- JS `s.toLowerCase()` (ASCII-relevant part, which is all the source compares). -/
def jsToLower (s : String) : String := String.mk (s.data.map Char.toLower)

/-- Split a char list at every char satisfying `sep` (JS `String.split` with a
single-char-class separator): always returns at least one (possibly empty) piece. -/
def splitArr (sep : Char → Bool) : List Char → List (List Char)
  | [] => [[]]
  | c :: cs =>
    match splitArr sep cs with
    | [] => [[]]
    | l :: ls => if sep c then [] :: l :: ls else (c :: l) :: ls

/-- JS `s.split('\n')`. -/
def jsSplitNl (s : String) : List String :=
  (splitArr (fun c => c == '\n') s.data).map String.mk

/-- JS `s.split(/[/\\]/)` as used for path segments in the source. -/
def jsSplitSeps (s : String) : List String :=
  (splitArr (fun c => c == '/' || c == '\\') s.data).map String.mk

/-- JS `s.split(/[/\\]/).pop()`: the last path segment of `s`. -/
def jsLastSeg (s : String) : String := (jsSplitSeps s).getLastD ""

/-- Join char-list lines with the newline char (JS `lines.join('\n')`). -/
def joinArr : List (List Char) → List Char
  | [] => []
  | [l] => l
  | l :: l2 :: ls => l ++ '\n' :: joinArr (l2 :: ls)

/-- JS `lines.join('\n')` on strings. -/
def jsJoinNl (ls : List String) : String := String.mk (joinArr (ls.map String.data))

/-- JS `v || d` on strings: the empty string stands for an unset/empty value. -/
def jsOrStr (v d : String) : String := if v = "" then d else v

/-- JS `v || d` on numbers held in settings: `none` models `undefined`, and the
number `0` is falsy, so both fall back to the default. -/
def jsOrInt (v : Option Int) (d : Int) : Int :=
  match v with
  | none => d
  | some n => if n = 0 then d else n

/-- JS truthiness of a nullable string (`null`/`undefined` and `""` are falsy). -/
def jsTruthyOpt : Option String → Bool
  | none => false
  | some s => s != ""

/-- Remove the first contiguous occurrence of `pat` from a char list
(JS `s.replace(pat, '')` with a plain-string pattern). -/
def removeFirstSub (pat : List Char) : List Char → List Char
  | [] => []
  | c :: cs =>
    if listStarts pat (c :: cs) then (c :: cs).drop pat.length
    else c :: removeFirstSub pat cs

/-- JS `s.replace(pat, '')` with a plain-string pattern. -/
def jsReplaceFirst (s pat : String) : String := String.mk (removeFirstSub pat.data s.data)

/-- JS `s.replace(/^[/\\]/, '')`: drop one leading path separator. -/
def stripLeadSep (s : String) : String :=
  match s.data with
  | [] => s
  | c :: cs => if c == '/' || c == '\\' then String.mk cs else s

/-!
Sync-tool path resolution.  The source computes the rclone executable from the
configured `settings.rclonePath` at three call sites; each starts from
`settings.rclonePath || "rclone"` (the empty string models an unset value).
-/

/-- Resolution performed inside `updateRcloneConfig`, src/main.js lines 64-85.
Note the extra final branch: a bare name that does not already end in `.exe`
gets `.exe` appended. -/
def fixRcloneMain (v : String) : String :=
  let r := jsOrStr v "rclone"
  if jsEndsWith r "\\" || jsEndsWith r "/" then r ++ "rclone.exe"
  else if jsIncludes r "\\" || jsIncludes r "/" then
    (if jsToLower (jsLastSeg r) == "rclone" then r ++ ".exe" else r)
  else if !(jsEndsWith r ".exe") then r ++ ".exe"
  else r

/-- Resolution performed inside `syncWithServer`, src/renderer.js lines 137-154:
no final bare-name branch, a value without separators is used verbatim. -/
def fixRcloneSync (v : String) : String :=
  let r := jsOrStr v "rclone"
  if jsEndsWith r "\\" || jsEndsWith r "/" then r ++ "rclone.exe"
  else if jsIncludes r "\\" || jsIncludes r "/" then
    (if jsToLower (jsLastSeg r) == "rclone" then r ++ ".exe" else r)
  else r

/-- Resolution performed inside `checkRcloneAvailability`, src/renderer.js
lines 77-94 (same shape as the `syncWithServer` copy). -/
def fixRcloneCheck (v : String) : String :=
  let r := jsOrStr v "rclone"
  if jsEndsWith r "\\" || jsEndsWith r "/" then r ++ "rclone.exe"
  else if jsIncludes r "\\" || jsIncludes r "/" then
    (if jsToLower (jsLastSeg r) == "rclone" then r ++ ".exe" else r)
  else r

/-- Modelled from the spec: the resolution rule of spec §4.3 as worded —
ends in a separator: append the platform executable name; contains a
separator and the lowercased last segment equals the base name of the tool:
append the executable extension; otherwise the value verbatim. -/
def resolveRuleSpec (r : String) : String :=
  if jsEndsWith r "\\" || jsEndsWith r "/" then r ++ "rclone.exe"
  else if (jsIncludes r "\\" || jsIncludes r "/") && jsToLower (jsLastSeg r) == "rclone" then
    r ++ ".exe"
  else r

/-!
Sync outcome classification and diagnostic filtering, src/renderer.js
lines 167-208.
-/

/-- Classification of one mirror attempt (spec §3 `SyncOutcome`); the
remote-folder and configuration failures exit `syncWithServer` before the
external tool runs, so only the execution-result cases appear here. -/
inductive SyncOutcome where
  | success (advisory : String)
  | toolNotFound
  | transferError (msg : String)
deriving DecidableEq

/-- The tool-not-found test on an execution error message,
src/renderer.js lines 172-175. -/
def isRcloneNotFound (e : String) : Bool :=
  (jsIncludes e "系统找不到指定的文件" ||
   jsIncludes e "command not found" ||
   jsIncludes e "The system cannot find") &&
  !(jsIncludes e "didn\u0027t find section")

/-- A diagnostic line survives filtering unless it begins with a progress
marker, src/renderer.js line 197. -/
def keepLine (l : String) : Bool :=
  !(jsStartsWith l "Transferred:") && !(jsStartsWith l "Elapsed time:") &&
  !(jsStartsWith l "Checking:")

/-- Filtering of captured stderr before advisory reporting,
src/renderer.js lines 196-198: split into lines, drop progress lines, rejoin. -/
def filterStderr (s : String) : String := jsJoinNl ((jsSplitNl s).filter keepLine)

/-- The result shape of the `execute-rclone` IPC call, src/main.js
lines 374-385: `error` is `null` or the message of the error. -/
structure ExecResp where
  error : Option String
  stdout : String
  stderr : String
deriving DecidableEq

/-- Outcome classification of one external-tool execution result,
src/renderer.js lines 167-208: a truthy error message is classified by
`isRcloneNotFound`, no error yields success with filtered advisory stderr. -/
def classifyExec (r : ExecResp) : SyncOutcome :=
  match r.error with
  | some e =>
    if e = "" then SyncOutcome.success (filterStderr r.stderr)
    else if isRcloneNotFound e then SyncOutcome.toolNotFound
    else SyncOutcome.transferError e
  | none => SyncOutcome.success (filterStderr r.stderr)

/-!
The sync engine and the remote-run orchestrator, src/renderer.js.
External collaborators (the remote endpoint, the external tool process)
are oracles supplied as an environment value; the externally visible
requests each call makes are collected as an `ReqAction` trace.
-/

/-- Persisted settings record (spec §6), src/renderer.js lines 272-279:
`syncInterval` is `none` when absent. -/
structure ServerSettings where
  ip : String
  user : String
  pass : String
  rclonePath : String
  syncInterval : Option Int
deriving DecidableEq

/-- Response of the remote `checkFolder` action. -/
structure CheckResp where
  success : Bool
  folderPath : String
  error : String
deriving DecidableEq

/-- Oracle for one `syncWithServer` call: the `checkFolder` response
(`none` models `sendToServer` returning `null` after a transport failure)
and the execution result of the external tool. -/
structure SyncEnv where
  checkFolder : Option CheckResp
  execResult : ExecResp
deriving DecidableEq

/-- Externally visible requests issued by the renderer. -/
inductive ReqAction where
  | checkFolder (folderName : String)
  | execTool (cmd : String)
  | runCode (folderName fpath content : String)
deriving DecidableEq

/-- Renderer-global state consulted by the sync engine:
`workspaceRoot` (null before a workspace is opened) and `serverSettings`. -/
structure RendererState where
  workspaceRoot : Option String
  settings : ServerSettings
deriving DecidableEq

/-- The mirror command line built at src/renderer.js lines 158-160. -/
def rcloneSyncCmd (exe root projectName : String) : String :=
  exe ++ " sync \"" ++ root ++ "\" \"cloud-compiler-sftp:/shareOnling/" ++
    projectName ++ "\" --progress"

/-- `syncWithServer`, src/renderer.js lines 113-214: precondition check,
remote folder check, tool-path resolution, one mirror invocation, outcome
classification.  Returns the JS boolean result plus the trace of external
requests issued.  (The timestamped log lines it appends are not modelled;
no claim depends on them.) -/
def syncWithServer (st : RendererState) (env : SyncEnv) : Bool × List ReqAction :=
  if !(jsTruthyOpt st.workspaceRoot) || st.settings.ip == "" || st.settings.user == "" then
    (false, [])
  else
    let root := st.workspaceRoot.getD ""
    let projectName := jsLastSeg root
    match env.checkFolder with
    | none => (false, [ReqAction.checkFolder projectName])
    | some cr =>
      if !cr.success then (false, [ReqAction.checkFolder projectName])
      else
        let exe := fixRcloneSync st.settings.rclonePath
        let acts := [ReqAction.checkFolder projectName,
                     ReqAction.execTool (rcloneSyncCmd exe root projectName)]
        match classifyExec env.execResult with
        | SyncOutcome.success _ => (true, acts)
        | _ => (false, acts)

/-- Response of the remote `runCode` action. -/
structure RunResp where
  success : Bool
  output : Option String
  error : Option String
  returncode : Option Int
deriving DecidableEq

/-- `runCodeOnServer`, src/renderer.js lines 655-709: precondition check,
mandatory mirror via `syncWithServer`, then the `runCode` request.  Returns
the trace of external requests plus the principal log messages the
orchestrator itself appends (timestamps and the result echo details are
not modelled). -/
def runCodeOnServer (st : RendererState) (env : SyncEnv) (runResp : Option RunResp)
    (filePath content : String) : List ReqAction × List String :=
  if !(jsTruthyOpt st.workspaceRoot) || st.settings.ip == "" then
    ([], ["Error: Workspace not opened or server not configured"])
  else
    match syncWithServer st env with
    | (false, acts) => (acts, ["Error: Failed to sync with server before running"])
    | (true, acts) =>
      let root := st.workspaceRoot.getD ""
      let projectName := jsLastSeg root
      let rel := stripLeadSep (jsReplaceFirst filePath root)
      let acts := acts ++ [ReqAction.runCode projectName rel content]
      match runResp with
      | none => (acts, ["Running code: " ++ rel, "Error: Failed to get run result from server"])
      | some r =>
        if r.success then (acts, ["Running code: " ++ rel, "=== RUN SUCCESS ==="])
        else (acts, ["Running code: " ++ rel, "=== RUN FAILED ==="])

/-!
Interleaving of two `syncWithServer` calls on the same root.  A call
suspends at its await points; the renderer runs the synchronous sections
between them atomically.  The source consults no shared in-progress flag
anywhere in `syncWithServer`, so a step of one call is enabled
independently of the phase of the other call.
-/

/-- Progress of one `syncWithServer` invocation through its await points:
`idle` = not yet called; `awaitCheck` = the `sendToServer("checkFolder")`
request (src/renderer.js line 123) is sent and its response awaited;
`awaitTool` = `window.api.executeRclone` (line 165) has been invoked and
the external sync-tool process is in flight; `done` = the call returned.
The phases follow the happy path in which the precondition and the folder
check succeed. -/
inductive SyncPhase where
  | idle
  | awaitCheck
  | awaitTool
  | done
deriving DecidableEq

/-- One call advances through its await points in order. -/
def phaseStep (a b : SyncPhase) : Prop :=
  (a = SyncPhase.idle ∧ b = SyncPhase.awaitCheck) ∨
  (a = SyncPhase.awaitCheck ∧ b = SyncPhase.awaitTool) ∨
  (a = SyncPhase.awaitTool ∧ b = SyncPhase.done)

/-- Interleaving of two calls: either call may take its next step; the
source gives neither call any way to observe or block on the other. -/
def sysStep (s t : SyncPhase × SyncPhase) : Prop :=
  (phaseStep s.1 t.1 ∧ s.2 = t.2) ∨ (phaseStep s.2 t.2 ∧ s.1 = t.1)

/-- Reachability of interleaved states. -/
def sysReach : SyncPhase × SyncPhase → SyncPhase × SyncPhase → Prop :=
  Relation.ReflTransGen sysStep

/-- Both calls have an external sync-tool process in flight. -/
def bothToolInFlight (s : SyncPhase × SyncPhase) : Prop :=
  s.1 = SyncPhase.awaitTool ∧ s.2 = SyncPhase.awaitTool

/-!
The auto-sync scheduler, src/renderer.js lines 712-726.  `autoSyncVar`
models the `autoSyncInterval` variable (the stored timer handle or null);
`timers` is the set of armed interval timers as (handle, seconds) pairs in
creation order; `nextId` produces fresh handles.
-/

/-- Scheduler state. -/
structure SchedState where
  autoSyncVar : Option Nat
  timers : List (Nat × Int)
  nextId : Nat
deriving DecidableEq

/-- Initial scheduler state: no timer armed. -/
def schedInit : SchedState := ⟨none, [], 0⟩

/-- `setupAutoSync`, src/renderer.js lines 712-726: clear the stored timer
if any, compute `serverSettings.syncInterval || 30`, and arm a new interval
timer when the result is positive. -/
def setupAutoSync (syncInterval : Option Int) (st : SchedState) : SchedState :=
  let st1 :=
    match st.autoSyncVar with
    | some tid => ⟨none, st.timers.filter (fun t => t.1 != tid), st.nextId⟩
    | none => st
  let interval := jsOrInt syncInterval 30
  if interval > 0 then
    ⟨some st1.nextId, st1.timers ++ [(st1.nextId, interval)], st1.nextId + 1⟩
  else st1

/-!
The tree snapshot builder, src/main.js lines 194-230.  Paths are segment
lists: `path.join(dir, name)` appends a segment and `path.basename` takes
the last segment.  The filesystem is an oracle pair: `stat` is `safeStat`
(lines 194-196, `none` when `fs.statSync` threw) and `readdir` is
`fs.readdirSync(dir, { withFileTypes: true })` (`none` when it threw);
the two are independent, so a directory listed by its parent may fail to
stat a moment later (the mid-walk race of the claims).  The walker is
written with explicit recursion fuel; the JS recursion is bounded by the
directory depth, so any fuel at least the depth reproduces it.
-/

/-- Kind of a directory entry as reported by `withFileTypes`:
`eother` covers entries that are neither `isDirectory()` nor `isFile()`. -/
inductive EntKind where
  | efile
  | edir
  | eother
deriving DecidableEq

/-- One `fs.readdirSync` entry. -/
structure DirEnt where
  name : String
  kind : EntKind
deriving DecidableEq

/-- Filesystem oracle for the tree walker. -/
structure TreeFS where
  stat : List String → Option EntKind
  readdir : List String → Option (List DirEnt)

/-- The tree value built by `readTree`: `nullNode` embeds the JS `null`
that `readTree` returns for a non-directory and that line 220 pushes
directly into a children array. -/
inductive TreeNode where
  | nullNode : TreeNode
  | file : String → List String → TreeNode
  | folder : String → List String → List TreeNode → TreeNode

/-- `path.basename` on a segment-list path. -/
def baseSeg (p : List String) : String := p.getLastD ""

/-- `readTree`, src/main.js lines 199-230: `null` unless the path stats as
a directory; a failed listing yields an empty entry list (lines 210-215);
directory entries recurse (line 220, pushing the recursive result even
when it is `null`), file entries become file nodes, other entries are
skipped. -/
def readTree (fs : TreeFS) : Nat → List String → TreeNode
  | 0, _ => TreeNode.nullNode
  | fuel + 1, p =>
    match fs.stat p with
    | some EntKind.edir =>
      let entries := (fs.readdir p).getD []
      TreeNode.folder (baseSeg p) p
        (entries.foldr (fun e acc =>
          match e.kind with
          | EntKind.edir => readTree fs fuel (p ++ [e.name]) :: acc
          | EntKind.efile => TreeNode.file e.name (p ++ [e.name]) :: acc
          | EntKind.eother => acc) [])
    | _ => TreeNode.nullNode

/-- The children list built by the entry loop of `readTree`
(src/main.js lines 217-228), named for the lemmas below. -/
def readChildren (fs : TreeFS) (fuel : Nat) (p : List String) : List DirEnt → List TreeNode
  | [] => []
  | e :: rest =>
    match e.kind with
    | EntKind.edir => readTree fs fuel (p ++ [e.name]) :: readChildren fs fuel p rest
    | EntKind.efile => TreeNode.file e.name (p ++ [e.name]) :: readChildren fs fuel p rest
    | EntKind.eother => readChildren fs fuel p rest

/-!
The recursive watcher, src/main.js lines 233-272.  String paths as in the
source; `watchers` is the `Map` as an insertion-ordered association list
from directory path to a watch handle, with fresh handles drawn from a
counter.  `fs.watch` itself is not modelled beyond handle creation (its
callback only fires later); `attachWatcher` recursion again carries fuel,
one unit per directory level.
-/

/-- Filesystem oracle for the watcher (string paths). -/
structure WatchFS where
  readdir : String → Option (List DirEnt)

/-- The watcher map plus a fresh-handle counter. -/
structure WatchState where
  watchers : List (String × Nat)
  nextId : Nat
deriving DecidableEq

/-- First-match lookup in the watcher map. -/
def lookupW : List (String × Nat) → String → Option Nat
  | [], _ => none
  | (k, v) :: rest, p => if p = k then some v else lookupW rest p

/-- JS `watchers.has(p)`. -/
def hasW (l : List (String × Nat)) (p : String) : Bool := (lookupW l p).isSome

/-- `path.join(dir, name)` on string paths (separator fixed as `/`;
nothing below depends on the separator choice). -/
def pathJoin (d n : String) : String := d ++ "/" ++ n

/-- `attachWatcher`, src/main.js lines 244-272: no-op if the directory is
already watched, otherwise arm a watch on it and recurse into the
subdirectories the listing reports (a failed listing yields none). -/
def attachWatcher (fs : WatchFS) : Nat → String → WatchState → WatchState
  | 0, _, st => st
  | fuel + 1, dir, st =>
    if hasW st.watchers dir then st
    else
      let st1 : WatchState := ⟨st.watchers ++ [(dir, st.nextId)], st.nextId + 1⟩
      ((fs.readdir dir).getD []).foldl
        (fun acc e =>
          match e.kind with
          | EntKind.edir => attachWatcher fs fuel (pathJoin dir e.name) acc
          | _ => acc) st1

/-- `watchFolderRecursive`, src/main.js lines 233-242: close and delete
every watcher whose path has `root` as a string prefix
(`p.startsWith(root)`), then re-arm from `root`. -/
def watchFolderRecursive (fs : WatchFS) (fuel : Nat) (root : String) (st : WatchState) :
    WatchState :=
  attachWatcher fs fuel root
    ⟨st.watchers.filter (fun kv => !(jsStartsWith kv.1 root)), st.nextId⟩

/-- The descendant relation the claims speak about: `p` lies strictly
below directory `root` when it extends `root` past a separator. -/
def isDescendantOf (p root : String) : Bool := jsStartsWith p (root ++ "/")

/-!
`readServerSettings`, src/main.js lines 16-42.  The filesystem and JSON
collaborators are oracles; `Except Unit` carries a thrown exception, and
the try/catch plus the final `return {}` are the match at the end.
-/

/-- Environment for one `readServerSettings` call: existence and contents
of the persisted and bundled settings files, the `JSON.parse` oracle, the
result of writing the seeded file, and the result of `updateRcloneConfig`
(which can itself throw, hence `Except`). -/
structure ReadEnv where
  userExists : Bool
  userRead : Except Unit String
  parse : String → Except Unit ServerSettings
  defaultExists : Bool
  defaultRead : Except Unit String
  writeUser : Except Unit Unit
  updateCfg : ServerSettings → Except Unit Bool

/-- The empty settings record `{}` returned on every failure path. -/
def emptySettings : ServerSettings := ⟨"", "", "", "", none⟩

/-- The `try` block of `readServerSettings` (src/main.js lines 17-37):
`some` settings when a branch returned, `none` when the block fell
through with neither file present, `Except.error` when a step threw. -/
def readSettingsTry (env : ReadEnv) : Except Unit (Option ServerSettings) :=
  if env.userExists then do
    let data ← env.userRead
    let s ← env.parse data
    let _ ← env.updateCfg s
    pure (some s)
  else if env.defaultExists then do
    let d ← env.defaultRead
    let s ← env.parse d
    let _ ← env.writeUser
    let _ ← env.updateCfg s
    pure (some s)
  else pure none

/-- `readServerSettings`, src/main.js lines 16-42: the catch handler and
the trailing `return {}` both produce the empty record. -/
def readServerSettings (env : ReadEnv) : ServerSettings :=
  match readSettingsTry env with
  | Except.ok (some s) => s
  | Except.ok none => emptySettings
  | Except.error _ => emptySettings


/-!
Auxiliary definitions used by the theorems: the scheduler invariant, the
count of external-tool invocations in a request trace, and concrete
fixtures for counterexamples and witnesses.
-/

/-- At most one interval timer is armed, and it is exactly the one the
`autoSyncInterval` variable stores. -/
def schedInv (st : SchedState) : Prop :=
  (st.autoSyncVar = none ∧ st.timers = []) ∨
  (∃ tid iv, st.autoSyncVar = some tid ∧ st.timers = [(tid, iv)])

/-- Number of external sync-tool process invocations in a request trace. -/
def execCount : List ReqAction → Nat
  | [] => 0
  | ReqAction.execTool _ :: rest => execCount rest + 1
  | _ :: rest => execCount rest

/-- Concrete filesystem for the tree-walk race: the root lists a
subdirectory `a` and a file `b`, but `a` has vanished by the time the walk
stats it. -/
def c5fs : TreeFS :=
  ⟨fun p => if p = ["root"] then some EntKind.edir
    else if p = ["root", "b"] then some EntKind.efile else none,
   fun p => if p = ["root"] then some [⟨"a", EntKind.edir⟩, ⟨"b", EntKind.efile⟩] else none⟩

/-- Concrete configured renderer state: workspace open, host and user set. -/
def c8st : RendererState := ⟨some "/w/proj", ⟨"10.0.0.2", "dev", "pw", "", none⟩⟩

/-- Concrete environment in which the remote folder check and the mirror
both succeed. -/
def c8env : SyncEnv := ⟨some ⟨true, "/shareOnling/proj", ""⟩, ⟨none, "", ""⟩⟩

/-- Concrete filesystem for the watcher claims: `/a/b` exists and is empty. -/
def c9fs : WatchFS := ⟨fun d => if d = "/a/b" then some [] else none⟩

/-- Watch state holding a single watch on the sibling path `/a/bc`, which
is neither `/a/b` nor a descendant of it. -/
def c9st : WatchState := ⟨[("/a/bc", 7)], 8⟩

/-- Watch state holding a watch on the unrelated path `/z`. -/
def c9wit : WatchState := ⟨[("/z", 3)], 4⟩

/-- Concrete settings environment in which neither settings file exists. -/
def c10env : ReadEnv :=
  ⟨false, Except.error (), fun _ => Except.error (), false, Except.error (),
   Except.ok (), fun _ => Except.ok true⟩

/-!
Theorems.
-/

/-- C3 counterexample: the three resolution sites do not agree.  For the
configured value `"rclone"` (equivalently, an unset value) the main
process resolves `"rclone.exe"` while both renderer sites resolve
`"rclone"` — the resolved executable strings are not all equal. -/
theorem c3_counterexample :
    fixRcloneMain "rclone" = "rclone.exe" ∧
    fixRcloneSync "rclone" = "rclone" ∧
    fixRcloneCheck "rclone" = "rclone" ∧
    fixRcloneMain "rclone" ≠ fixRcloneSync "rclone" := by
  refine ⟨by decide, by decide, by decide, by decide⟩

/-- C3 amended: the two renderer resolution sites (`syncWithServer` and
`checkRcloneAvailability`) compute identical resolved strings for every
configured value; the main-process site (`updateRcloneConfig`) agrees with
them except when the defaulted value contains no path separator and does
not already end in `.exe`, in which case it additionally appends `.exe`. -/
theorem c3_amended :
    (∀ v, fixRcloneSync v = fixRcloneCheck v) ∧
    (∀ v, fixRcloneMain v =
      (if jsEndsWith (jsOrStr v "rclone") "\\" || jsEndsWith (jsOrStr v "rclone") "/" ||
          jsIncludes (jsOrStr v "rclone") "\\" || jsIncludes (jsOrStr v "rclone") "/" ||
          jsEndsWith (jsOrStr v "rclone") ".exe" then
        fixRcloneSync v
      else fixRcloneSync v ++ ".exe")) := by
  constructor
  · intro v; rfl
  · intro v
    simp only [fixRcloneMain, fixRcloneSync]
    by_cases h1 : (jsEndsWith (jsOrStr v "rclone") "\\" || jsEndsWith (jsOrStr v "rclone") "/") = true <;>
      by_cases h2 : (jsIncludes (jsOrStr v "rclone") "\\" || jsIncludes (jsOrStr v "rclone") "/") = true <;>
        by_cases h3 : jsEndsWith (jsOrStr v "rclone") ".exe" = true <;>
          simp_all

/-- C4 counterexample: the claim covers `updateRcloneConfig` (src/main.js
lines 64-85), yet there the bare command name `"rclone"` does not resolve
verbatim: `.exe` is appended. -/
theorem c4_counterexample :
    fixRcloneMain "rclone" = "rclone.exe" ∧ fixRcloneMain "rclone" ≠ "rclone" := by
  refine ⟨by decide, by decide⟩

/-- C4 amended: the stated rule (separator-suffixed value gets
`rclone.exe`, separator-containing value whose lowercased last segment is
`rclone` gets `.exe`, anything else verbatim) holds for the renderer
resolution in `syncWithServer` applied to the defaulted value, with the
stated examples; in `updateRcloneConfig` a value without separators that
does not already end in `.exe` additionally gets `.exe` appended, so
`"rclone"` resolves to `"rclone.exe"` there. -/
theorem c4_amended :
    (∀ v, fixRcloneSync v = resolveRuleSpec (jsOrStr v "rclone")) ∧
    fixRcloneSync "C:\\tools\\" = "C:\\tools\\rclone.exe" ∧
    fixRcloneSync "C:\\tools\\rclone" = "C:\\tools\\rclone.exe" ∧
    fixRcloneSync "rclone" = "rclone" ∧
    fixRcloneMain "rclone" = "rclone.exe" := by
  refine ⟨?_, by decide, by decide, by decide, by decide⟩
  intro v
  simp only [fixRcloneSync, resolveRuleSpec]
  by_cases h1 : (jsEndsWith (jsOrStr v "rclone") "\\" || jsEndsWith (jsOrStr v "rclone") "/") = true <;>
    by_cases h2 : (jsIncludes (jsOrStr v "rclone") "\\" || jsIncludes (jsOrStr v "rclone") "/") = true <;>
      by_cases h3 : (jsToLower (jsLastSeg (jsOrStr v "rclone")) == "rclone") = true <;>
        simp_all

/-- C6: for every non-empty sync-tool error message, the outcome
classification yields `toolNotFound` exactly when the message contains one
of the tool-not-found signatures (`command not found`, the localized
`cannot find the file` phrasing, `The system cannot find`) and does not
mention a missing configuration section; every other non-empty message
yields `transferError`; in particular `bash: rclone: command not found`
classifies as `toolNotFound` and `didn\u0027t find section in config file`
as `transferError`. -/
theorem c6_classification :
    (∀ e so se : String, e ≠ "" →
      ((classifyExec ⟨some e, so, se⟩ = SyncOutcome.toolNotFound ↔
         ((jsIncludes e "command not found" = true ∨
           jsIncludes e "系统找不到指定的文件" = true ∨
           jsIncludes e "The system cannot find" = true) ∧
          jsIncludes e "didn\u0027t find section" = false)) ∧
       (classifyExec ⟨some e, so, se⟩ = SyncOutcome.toolNotFound ∨
        classifyExec ⟨some e, so, se⟩ = SyncOutcome.transferError e))) ∧
    classifyExec ⟨some "bash: rclone: command not found", "", ""⟩ = SyncOutcome.toolNotFound ∧
    classifyExec ⟨some "didn\u0027t find section in config file", "", ""⟩ =
      SyncOutcome.transferError "didn\u0027t find section in config file" := by
  refine ⟨?_, by decide, by decide⟩
  intro e so se he
  have hcls : classifyExec ⟨some e, so, se⟩ =
      (if isRcloneNotFound e then SyncOutcome.toolNotFound else SyncOutcome.transferError e) := by
    simp [classifyExec, he]
  by_cases h : isRcloneNotFound e = true
  · rw [hcls, if_pos h]
    unfold isRcloneNotFound at h
    simp only [Bool.and_eq_true, Bool.or_eq_true, Bool.not_eq_true'] at h
    exact ⟨⟨fun _ => ⟨by tauto, h.2⟩, fun _ => rfl⟩, Or.inl rfl⟩
  · rw [hcls, if_neg h]
    unfold isRcloneNotFound at h
    simp only [Bool.and_eq_true, Bool.or_eq_true, Bool.not_eq_true', not_and, not_or] at h
    refine ⟨⟨fun hx => absurd hx (by simp), fun hx => ?_⟩, Or.inr rfl⟩
    exact absurd (h (by tauto)) (by simp [hx.2])

/-- C6 witness: the general classification theorem applied to the concrete
message `sh: line 1: rclone: command not found`. -/
theorem c6_witness :
    classifyExec ⟨some "sh: line 1: rclone: command not found", "out", "err"⟩ =
        SyncOutcome.toolNotFound ↔
      ((jsIncludes "sh: line 1: rclone: command not found" "command not found" = true ∨
        jsIncludes "sh: line 1: rclone: command not found" "系统找不到指定的文件" = true ∨
        jsIncludes "sh: line 1: rclone: command not found" "The system cannot find" = true) ∧
       jsIncludes "sh: line 1: rclone: command not found" "didn\u0027t find section" = false) :=
  (c6_classification.1 "sh: line 1: rclone: command not found" "out" "err" (by decide)).1

/-- Each `setupAutoSync` call preserves the one-timer invariant: it first
cancels the stored timer, then arms at most one new timer. -/
theorem setupAutoSync_inv (i : Option Int) (st : SchedState) (h : schedInv st) :
    schedInv (setupAutoSync i st) := by
  rcases h with ⟨hv, ht⟩ | ⟨tid, iv, hv, ht⟩ <;>
    · simp only [setupAutoSync, hv, ht]
      by_cases hi : jsOrInt i 30 > 0 <;>
        simp [hi, schedInv, List.filter, hv, ht]

/-- C2 counterexample: re-arming the scheduler with `syncInterval = 0`
does not disable automatic triggers — `0 || 30` defaults to `30`, so a
fresh 30-second timer is armed (here after a prior arm with 60). -/
theorem c2_counterexample :
    (setupAutoSync (some 0) (setupAutoSync (some 60) schedInit)).timers = [(1, 30)] ∧
    (setupAutoSync (some 0) (setupAutoSync (some 60) schedInit)).timers ≠ [] := by
  refine ⟨by decide, by decide⟩

/-- C2 amended: each `setupAutoSync` call first cancels the previously
active recurring timer, so after any call sequence at most one timer is
active; but a call with `syncInterval = 0` (like an unset interval) arms
the default 30-second timer rather than disabling automatic triggers —
only a negative `syncInterval` leaves no active timer. -/
theorem c2_amended :
    (∀ calls : List (Option Int),
      (calls.foldl (fun s i => setupAutoSync i s) schedInit).timers.length ≤ 1) ∧
    (∀ st, schedInv st → (setupAutoSync (some 0) st).timers.map Prod.snd = [30]) ∧
    (∀ st i, i < 0 → schedInv st → (setupAutoSync (some i) st).timers = []) := by
  refine ⟨?_, ?_, ?_⟩
  · intro calls
    have key : ∀ (cs : List (Option Int)) (st : SchedState), schedInv st →
        schedInv (cs.foldl (fun s i => setupAutoSync i s) st) := by
      intro cs
      induction cs with
      | nil => intro st h; exact h
      | cons c rest ih =>
        intro st h
        exact ih _ (setupAutoSync_inv c st h)
    rcases key calls schedInit (Or.inl ⟨rfl, rfl⟩) with ⟨_, ht⟩ | ⟨_, _, _, ht⟩ <;>
      simp [ht]
  · intro st h
    rcases h with ⟨hv, ht⟩ | ⟨tid, iv, hv, ht⟩ <;>
      simp [setupAutoSync, hv, ht, jsOrInt, List.filter]
  · intro st i hi h
    have hi0 : jsOrInt (some i) 30 = i := by
      simp [jsOrInt, show i ≠ 0 by omega]
    rcases h with ⟨hv, ht⟩ | ⟨tid, iv, hv, ht⟩ <;>
      simp [setupAutoSync, hv, ht, hi0, List.filter, show ¬(i > 0) by omega]

/-- C2 witness: the amended theorem applied at the initial scheduler
state with `syncInterval = 0`, which arms the single default 30-second
timer. -/
theorem c2_witness : (setupAutoSync (some 0) schedInit).timers.map Prod.snd = [30] :=
  c2_amended.2.1 schedInit (Or.inl ⟨rfl, rfl⟩)

/-- C1 counterexample: from two pending `syncWithServer` calls on the same
root, the interleaving in which the second call reaches `executeRclone`
while the first still awaits its own `executeRclone` is reachable, and in
that state both external sync-tool processes are in flight at once — the
source has no in-progress flag, so the second call neither waits nor is
rejected. -/
theorem c1_counterexample :
    sysReach (SyncPhase.idle, SyncPhase.idle) (SyncPhase.awaitTool, SyncPhase.awaitTool) ∧
    bothToolInFlight (SyncPhase.awaitTool, SyncPhase.awaitTool) := by
  constructor
  · have s1 : sysStep (SyncPhase.idle, SyncPhase.idle) (SyncPhase.awaitCheck, SyncPhase.idle) :=
      Or.inl ⟨Or.inl ⟨rfl, rfl⟩, rfl⟩
    have s2 : sysStep (SyncPhase.awaitCheck, SyncPhase.idle) (SyncPhase.awaitTool, SyncPhase.idle) :=
      Or.inl ⟨Or.inr (Or.inl ⟨rfl, rfl⟩), rfl⟩
    have s3 : sysStep (SyncPhase.awaitTool, SyncPhase.idle) (SyncPhase.awaitTool, SyncPhase.awaitCheck) :=
      Or.inr ⟨Or.inl ⟨rfl, rfl⟩, rfl⟩
    have s4 : sysStep (SyncPhase.awaitTool, SyncPhase.awaitCheck) (SyncPhase.awaitTool, SyncPhase.awaitTool) :=
      Or.inr ⟨Or.inr (Or.inl ⟨rfl, rfl⟩), rfl⟩
    exact Relation.ReflTransGen.head s1 (Relation.ReflTransGen.head s2
      (Relation.ReflTransGen.head s3 (Relation.ReflTransGen.single s4)))
  · exact ⟨rfl, rfl⟩

/-- C1 amended: `syncWithServer` has no per-root mutual exclusion — a
state with two overlapping external sync-tool invocations on the same root
is reachable, and a call may take its next step regardless of the phase of
the other call (neither waiting nor rejection exists); a single call does
start at most one external sync-tool invocation. -/
theorem c1_amended :
    (∃ s, sysReach (SyncPhase.idle, SyncPhase.idle) s ∧ bothToolInFlight s) ∧
    (∀ st env, execCount (syncWithServer st env).2 ≤ 1) ∧
    (∀ a b c, phaseStep a b → sysStep (a, c) (b, c)) := by
  refine ⟨?_, ?_, ?_⟩
  · refine ⟨(SyncPhase.awaitTool, SyncPhase.awaitTool), ?_, ⟨rfl, rfl⟩⟩
    have s1 : sysStep (SyncPhase.idle, SyncPhase.idle) (SyncPhase.awaitCheck, SyncPhase.idle) :=
      Or.inl ⟨Or.inl ⟨rfl, rfl⟩, rfl⟩
    have s2 : sysStep (SyncPhase.awaitCheck, SyncPhase.idle) (SyncPhase.awaitTool, SyncPhase.idle) :=
      Or.inl ⟨Or.inr (Or.inl ⟨rfl, rfl⟩), rfl⟩
    have s3 : sysStep (SyncPhase.awaitTool, SyncPhase.idle) (SyncPhase.awaitTool, SyncPhase.awaitCheck) :=
      Or.inr ⟨Or.inl ⟨rfl, rfl⟩, rfl⟩
    have s4 : sysStep (SyncPhase.awaitTool, SyncPhase.awaitCheck) (SyncPhase.awaitTool, SyncPhase.awaitTool) :=
      Or.inr ⟨Or.inr (Or.inl ⟨rfl, rfl⟩), rfl⟩
    exact Relation.ReflTransGen.head s1 (Relation.ReflTransGen.head s2
      (Relation.ReflTransGen.head s3 (Relation.ReflTransGen.single s4)))
  · intro st env
    unfold syncWithServer
    split
    · simp [execCount]
    · rcases env.checkFolder with _ | cr
      · simp [execCount]
      · simp only []
        split
        · simp [execCount]
        · rcases h : classifyExec env.execResult with a | _ | m <;> simp [execCount]
  · intro a b c h
    exact Or.inl ⟨h, rfl⟩

/-- C1 witness: a step of the first call is enabled while the second call
has its external process in flight. -/
theorem c1_witness :
    sysStep (SyncPhase.idle, SyncPhase.awaitTool) (SyncPhase.awaitCheck, SyncPhase.awaitTool) :=
  c1_amended.2.2 SyncPhase.idle SyncPhase.awaitCheck SyncPhase.awaitTool (Or.inl ⟨rfl, rfl⟩)

/-- `splitArr` always produces at least one piece. -/
theorem splitArr_ne_nil (sep : Char → Bool) (cs : List Char) : splitArr sep cs ≠ [] := by
  cases cs with
  | nil => simp [splitArr]
  | cons c cs =>
    simp only [splitArr]
    split
    · simp
    · split <;> simp

/-- A piece free of separator chars splits into itself alone. -/
theorem splitArr_noSep (sep : Char → Bool) (l : List Char) (h : ∀ c ∈ l, sep c = false) :
    splitArr sep l = [l] := by
  induction l with
  | nil => rfl
  | cons c cs ih =>
    have hc : sep c = false := h c (by simp)
    have ih2 := ih (fun x hx => h x (by simp [hx]))
    simp [splitArr, ih2, hc]

/-- Splitting after a separator-free block prepends the block to the first
piece of the rest. -/
theorem splitArr_append (sep : Char → Bool) (l rest : List Char)
    (h : ∀ c ∈ l, sep c = false) :
    splitArr sep (l ++ rest) =
      (l ++ (splitArr sep rest).headD []) :: (splitArr sep rest).tail := by
  induction l with
  | nil =>
    rcases hr : splitArr sep rest with _ | ⟨x, xs⟩
    · exact absurd hr (splitArr_ne_nil sep rest)
    · simp [hr]
  | cons c cs ih =>
    have hc : sep c = false := h c (by simp)
    have ih2 := ih (fun x hx => h x (by simp [hx]))
    simp only [List.cons_append, splitArr, List.append_eq]
    rw [ih2]
    simp [hc]

/-- Splitting at a leading separator char emits an empty first piece. -/
theorem splitArr_cons_sep (sep : Char → Bool) (c : Char) (hc : sep c = true)
    (rest : List Char) : splitArr sep (c :: rest) = [] :: splitArr sep rest := by
  rcases hr : splitArr sep rest with _ | ⟨x, xs⟩
  · exact absurd hr (splitArr_ne_nil sep rest)
  · simp [splitArr, hr, hc]

/-- Splitting on newline inverts joining with newline for newline-free
lines. -/
theorem splitArr_joinArr (css : List (List Char))
    (h : ∀ cs ∈ css, ∀ c ∈ cs, (c == '\n') = false) (hne : css ≠ []) :
    splitArr (fun c => c == '\n') (joinArr css) = css := by
  induction css with
  | nil => cases hne rfl
  | cons l ls ih =>
    cases ls with
    | nil => exact splitArr_noSep _ l (h l (by simp))
    | cons l2 ls2 =>
      have hl : ∀ c ∈ l, (c == '\n') = false := h l (by simp)
      have hrec := ih (fun cs hcs => h cs (List.mem_cons_of_mem _ hcs)) (by simp)
      simp only [joinArr]
      rw [splitArr_append _ l _ hl, splitArr_cons_sep _ '\n' (by simp) _, hrec]
      simp

/-- Rebuilding a string from its char data is the identity. -/
theorem strMkData (s : String) : String.mk s.data = s := rfl

/-- Splitting on newline inverts joining with newline at the `String`
level. -/
theorem jsSplitNl_jsJoinNl (ls : List String)
    (h : ∀ l ∈ ls, ∀ c ∈ l.data, (c == '\n') = false) (hne : ls ≠ []) :
    jsSplitNl (jsJoinNl ls) = ls := by
  show List.map String.mk (splitArr (fun c => c == '\n') (joinArr (List.map String.data ls))) = ls
  rw [splitArr_joinArr (ls.map String.data)
    (by
      intro cs hcs c hc
      rcases List.mem_map.mp hcs with ⟨l, hl, rfl⟩
      exact h l hl c hc)
    (by simpa using hne)]
  rw [List.map_map]
  have hid : (String.mk ∘ String.data) = id := funext strMkData
  rw [hid, List.map_id]

/-- C7: on a successful mirror the advisory output equals the captured
stderr split into lines, with every line beginning with `Transferred:`,
`Elapsed time:` or `Checking:` removed, rejoined; stated for any stderr
assembled from newline-free lines, and in particular the three-line input
of the claim filters to `permission denied: /x`. -/
theorem c7_filtering :
    (∀ ls : List String, (∀ l ∈ ls, ∀ c ∈ l.data, (c == '\n') = false) →
      filterStderr (jsJoinNl ls) = jsJoinNl (ls.filter keepLine)) ∧
    filterStderr "Transferred: 3 files\nElapsed time: 2s\npermission denied: /x" =
      "permission denied: /x" := by
  refine ⟨?_, by decide⟩
  intro ls h
  cases ls with
  | nil => decide
  | cons l rest =>
    unfold filterStderr
    rw [jsSplitNl_jsJoinNl (l :: rest) h (by simp)]

/-- C7 witness: the general filtering theorem applied to the concrete
line list of the claim. -/
theorem c7_witness :
    filterStderr (jsJoinNl ["Transferred: 3 files", "Elapsed time: 2s", "permission denied: /x"]) =
      jsJoinNl (["Transferred: 3 files", "Elapsed time: 2s", "permission denied: /x"].filter keepLine) :=
  c7_filtering.1 ["Transferred: 3 files", "Elapsed time: 2s", "permission denied: /x"] (by decide)

/-- The entry loop of `readTree` builds exactly `readChildren`. -/
theorem readTree_foldr_eq (fs : TreeFS) (fuel : Nat) (p : List String)
    (entries : List DirEnt) :
    entries.foldr (fun e acc =>
      match e.kind with
      | EntKind.edir => readTree fs fuel (p ++ [e.name]) :: acc
      | EntKind.efile => TreeNode.file e.name (p ++ [e.name]) :: acc
      | EntKind.eother => acc) [] = readChildren fs fuel p entries := by
  induction entries with
  | nil => rfl
  | cons e rest ih => cases hk : e.kind <;> simp [readChildren, hk, ih]

/-- One unfolding step of `readTree` with positive fuel. -/
theorem readTree_succ (fs : TreeFS) (fuel : Nat) (p : List String) :
    readTree fs (fuel + 1) p =
      (match fs.stat p with
       | some EntKind.edir =>
         TreeNode.folder (baseSeg p) p (readChildren fs fuel p ((fs.readdir p).getD []))
       | _ => TreeNode.nullNode) := by
  rcases hs : fs.stat p with _ | k
  · simp [readTree, hs]
  · cases k <;> simp [readTree, hs, readTree_foldr_eq]

/-- The basename of a path extended by one segment is that segment. -/
theorem baseSeg_concat (p : List String) (n : String) : baseSeg (p ++ [n]) = n := by
  simp [baseSeg]

/-- C5 counterexample: walking `c5fs` from its root, the subdirectory `a`
listed by the parent has vanished by the time it is stated, and the walk
pushes the JS `null` that the recursive `readTree` returned straight into
the children array — the child entry for `a` is `null`, not a well-formed
folder node with an empty children list. -/
theorem c5_counterexample :
    readTree c5fs 2 ["root"] =
      TreeNode.folder "root" ["root"] [TreeNode.nullNode, TreeNode.file "b" ["root", "b"]] ∧
    (∀ nm pth, TreeNode.nullNode ≠ TreeNode.folder nm pth []) := by
  exact ⟨rfl, fun nm pth h => TreeNode.noConfusion h⟩

/-- C5 amended: `readTree` returns `null` exactly when the path does not
stat as a directory; a directory whose listing fails yields a node with an
empty children list; within a readable directory the walk never aborts —
every file entry still contributes its file node — but a subdirectory that
vanishes (fails to stat) mid-walk contributes a `null` child entry, while
a subdirectory that stats but whose listing fails contributes a folder
node with an empty children list. -/
theorem c5_amended :
    (∀ fs fuel p, readTree fs (fuel + 1) p = TreeNode.nullNode ↔ fs.stat p ≠ some EntKind.edir) ∧
    (∀ fs fuel p entries, fs.stat p = some EntKind.edir → fs.readdir p = some entries →
      readTree fs (fuel + 1) p = TreeNode.folder (baseSeg p) p (readChildren fs fuel p entries)) ∧
    (∀ fs fuel p, fs.stat p = some EntKind.edir → fs.readdir p = none →
      readTree fs (fuel + 1) p = TreeNode.folder (baseSeg p) p []) ∧
    (∀ fs fuel p entries n, (⟨n, EntKind.efile⟩ : DirEnt) ∈ entries →
      TreeNode.file n (p ++ [n]) ∈ readChildren fs fuel p entries) ∧
    (∀ fs fuel p entries n, (⟨n, EntKind.edir⟩ : DirEnt) ∈ entries →
      fs.stat (p ++ [n]) = none →
      TreeNode.nullNode ∈ readChildren fs fuel p entries) ∧
    (∀ fs fuel p entries n, (⟨n, EntKind.edir⟩ : DirEnt) ∈ entries →
      fs.stat (p ++ [n]) = some EntKind.edir → fs.readdir (p ++ [n]) = none →
      TreeNode.folder n (p ++ [n]) [] ∈ readChildren fs (fuel + 1) p entries) := by
  refine ⟨?_, ?_, ?_, ?_, ?_, ?_⟩
  · intro fs fuel p
    rw [readTree_succ]
    rcases hs : fs.stat p with _ | k
    · simp
    · cases k <;> simp
  · intro fs fuel p entries hs hr
    rw [readTree_succ, hs, hr]
    rfl
  · intro fs fuel p hs hr
    rw [readTree_succ, hs, hr]
    rfl
  · intro fs fuel p entries n hmem
    induction entries with
    | nil => cases hmem
    | cons e rest ih =>
      rcases List.mem_cons.mp hmem with he | hrest
      · rw [← he]
        simp [readChildren]
      · cases hk : e.kind <;> simp [readChildren, hk] <;>
          first
          | exact ih hrest
          | exact Or.inr (ih hrest)
  · intro fs fuel p entries n hmem hstat
    induction entries with
    | nil => cases hmem
    | cons e rest ih =>
      rcases List.mem_cons.mp hmem with he | hrest
      · rw [← he]
        simp only [readChildren]
        have hnull : readTree fs fuel (p ++ [n]) = TreeNode.nullNode := by
          cases fuel with
          | zero => rfl
          | succ f => rw [readTree_succ, hstat]
        rw [hnull]
        exact List.mem_cons_self _ _
      · cases hk : e.kind <;> simp [readChildren, hk] <;>
          first
          | exact ih hrest
          | exact Or.inr (ih hrest)
  · intro fs fuel p entries n hmem hstat hread
    induction entries with
    | nil => cases hmem
    | cons e rest ih =>
      rcases List.mem_cons.mp hmem with he | hrest
      · rw [← he]
        simp only [readChildren]
        have hfold : readTree fs (fuel + 1) (p ++ [n]) = TreeNode.folder n (p ++ [n]) [] := by
          rw [readTree_succ, hstat, hread, baseSeg_concat]
          rfl
        rw [hfold]
        exact List.mem_cons_self _ _
      · cases hk : e.kind <;> simp [readChildren, hk] <;>
          first
          | exact ih hrest
          | exact Or.inr (ih hrest)

/-- C5 witness: the amended theorem applied to the concrete racy
filesystem `c5fs`: the vanished subdirectory `a` contributes a `null`
child among the children of the root walk. -/
theorem c5_witness :
    TreeNode.nullNode ∈
      readChildren c5fs 1 ["root"] [⟨"a", EntKind.edir⟩, ⟨"b", EntKind.efile⟩] :=
  c5_amended.2.2.2.2.1 c5fs 1 ["root"] [⟨"a", EntKind.edir⟩, ⟨"b", EntKind.efile⟩] "a"
    (List.mem_cons_self _ _) rfl

/-- The mirror itself never issues a `runCode` request. -/
theorem sync_no_runCode (st : RendererState) (env : SyncEnv) (pn pth ct : String) :
    ReqAction.runCode pn pth ct ∉ (syncWithServer st env).2 := by
  unfold syncWithServer
  split
  · simp
  · rcases env.checkFolder with _ | cr
    · simp
    · simp only []
      split
      · simp
      · rcases classifyExec env.execResult with a | _ | m <;> simp

/-- C8: `runCodeOnServer` performs the full mirror first and aborts on
mirror failure: whenever `syncWithServer` reports failure no `runCode`
request is issued and a local error line is reported; and on a configured
state the request trace is exactly the mirror trace followed by the
`runCode` request when and only when the mirror succeeded. -/
theorem c8_run_requires_sync :
    (∀ st env rr f c pn pth ct, (syncWithServer st env).1 = false →
      ReqAction.runCode pn pth ct ∉ (runCodeOnServer st env rr f c).1) ∧
    (∀ st env rr f c, jsTruthyOpt st.workspaceRoot = true → st.settings.ip ≠ "" →
      (runCodeOnServer st env rr f c).1 =
        (syncWithServer st env).2 ++
          (if (syncWithServer st env).1 then
            [ReqAction.runCode (jsLastSeg (st.workspaceRoot.getD ""))
              (stripLeadSep (jsReplaceFirst f (st.workspaceRoot.getD ""))) c]
          else [])) ∧
    (∀ st env rr f c, (syncWithServer st env).1 = false →
      "Error: Failed to sync with server before running" ∈ (runCodeOnServer st env rr f c).2 ∨
      "Error: Workspace not opened or server not configured" ∈ (runCodeOnServer st env rr f c).2) := by
  refine ⟨?_, ?_, ?_⟩
  · intro st env rr f c pn pth ct hsync
    unfold runCodeOnServer
    split
    · simp
    · rcases hs : syncWithServer st env with ⟨ok, acts⟩
      rw [hs] at hsync
      simp only at hsync
      subst hsync
      simpa using fun hmem => (sync_no_runCode st env pn pth ct) (hs ▸ hmem)
  · intro st env rr f c hroot hip
    have hcond : (!(jsTruthyOpt st.workspaceRoot) || st.settings.ip == "") = false := by
      rw [hroot]
      simpa using hip
    unfold runCodeOnServer
    rw [if_neg (by simp [hcond])]
    rcases hs : syncWithServer st env with ⟨ok, acts⟩
    cases ok
    · simp
    · simp only [if_pos]
      rcases rr with _ | r
      · simp
      · by_cases hr : r.success = true <;> simp [hr]
  · intro st env rr f c hsync
    unfold runCodeOnServer
    split
    · right; simp
    · rcases hs : syncWithServer st env with ⟨ok, acts⟩
      rw [hs] at hsync
      simp only at hsync
      subst hsync
      left; simp

/-- C8 witness: applied at the concrete configured state `c8st` in the
successful environment `c8env`: the orchestrator trace is the mirror trace
followed by the `runCode` request. -/
theorem c8_witness :
    (runCodeOnServer c8st c8env none "/w/proj/main.py" "print(1)").1 =
      (syncWithServer c8st c8env).2 ++
        (if (syncWithServer c8st c8env).1 then
          [ReqAction.runCode (jsLastSeg (c8st.workspaceRoot.getD ""))
            (stripLeadSep (jsReplaceFirst "/w/proj/main.py" (c8st.workspaceRoot.getD ""))) "print(1)"]
        else []) :=
  c8_run_requires_sync.2.1 c8st c8env none "/w/proj/main.py" "print(1)" (by decide) (by decide)

/-- Every char list heads itself. -/
theorem listStarts_refl (l : List Char) : listStarts l l = true := by
  induction l with
  | nil => rfl
  | cons c cs ih => simp [listStarts, ih]

/-- Heading is preserved by extending the larger list. -/
theorem listStarts_append (p l m : List Char) (h : listStarts p l = true) :
    listStarts p (l ++ m) = true := by
  induction p generalizing l with
  | nil => rfl
  | cons c cs ih =>
    cases l with
    | nil => cases h
    | cons d ds =>
      simp only [listStarts, Bool.and_eq_true, beq_iff_eq] at h
      simp [listStarts, h.1, ih ds h.2]

/-- Appending string data distributes over concatenation. -/
theorem strData_append (a b : String) : (a ++ b).data = a.data ++ b.data := by
  cases a
  cases b
  rfl

/-- `startsWith` is reflexive. -/
theorem jsStartsWith_self (s : String) : jsStartsWith s s = true := listStarts_refl s.data

/-- `startsWith` survives appending to the larger string. -/
theorem jsStartsWith_append (s t root : String) (h : jsStartsWith s root = true) :
    jsStartsWith (s ++ t) root = true := by
  unfold jsStartsWith at h ⊢
  rw [strData_append]
  exact listStarts_append _ _ _ h

/-- A joined child path keeps every text head of its directory. -/
theorem jsStartsWith_pathJoin (d n root : String) (h : jsStartsWith d root = true) :
    jsStartsWith (pathJoin d n) root = true :=
  jsStartsWith_append _ _ _ (jsStartsWith_append _ _ _ h)

/-- Two strings cannot be equal when only one of them has `root` as a
text head. -/
theorem ne_of_starts (p d root : String) (hd : jsStartsWith d root = true)
    (hp : jsStartsWith p root = false) : p ≠ d := by
  intro he
  rw [he, hd] at hp
  cases hp

/-- Appending a differently-keyed entry does not change a lookup. -/
theorem lookupW_append_ne (l : List (String × Nat)) (k : String) (v : Nat) (p : String)
    (h : p ≠ k) : lookupW (l ++ [(k, v)]) p = lookupW l p := by
  induction l with
  | nil => simp [lookupW, h]
  | cons kv rest ih =>
    rcases kv with ⟨k0, v0⟩
    by_cases hp : p = k0 <;> simp [lookupW, hp, ih]

/-- Filtering with a predicate that keeps every entry of key `p` does not
change the lookup of `p`. -/
theorem lookupW_filter_keep (pr : String × Nat → Bool) (l : List (String × Nat)) (p : String)
    (h : ∀ v, pr (p, v) = true) : lookupW (l.filter pr) p = lookupW l p := by
  induction l with
  | nil => rfl
  | cons kv rest ih =>
    rcases kv with ⟨k0, v0⟩
    by_cases hp : p = k0
    · subst hp
      rw [List.filter_cons, if_pos (by simp [h v0])]
      simp [lookupW]
    · rw [List.filter_cons]
      split
      · simp [lookupW, hp, ih]
      · simp [lookupW, hp, ih]

/-- `attachWatcher` below a directory that extends `root` adds only keys
that extend `root`, so lookups of other paths are untouched. -/
theorem attach_keeps (fs : WatchFS) (root p : String) (hp : jsStartsWith p root = false) :
    ∀ fuel d st, jsStartsWith d root = true →
      lookupW (attachWatcher fs fuel d st).watchers p = lookupW st.watchers p := by
  intro fuel
  induction fuel with
  | zero => intro d st hd; rfl
  | succ fuel ih =>
    intro d st hd
    unfold attachWatcher
    split
    · rfl
    · have hbase : lookupW (st.watchers ++ [(d, st.nextId)]) p = lookupW st.watchers p :=
        lookupW_append_ne _ _ _ _ (ne_of_starts p d root hd hp)
      have hfold : ∀ (es : List DirEnt) (acc : WatchState),
          lookupW acc.watchers p = lookupW st.watchers p →
          lookupW ((es.foldl (fun acc e =>
            match e.kind with
            | EntKind.edir => attachWatcher fs fuel (pathJoin d e.name) acc
            | _ => acc) acc)).watchers p = lookupW st.watchers p := by
        intro es
        induction es with
        | nil => intro acc hacc; exact hacc
        | cons e rest ihes =>
          intro acc hacc
          simp only [List.foldl_cons]
          apply ihes
          cases hk : e.kind
          · simpa [hk] using hacc
          · simp only [hk]
            rw [ih (pathJoin d e.name) acc (jsStartsWith_pathJoin d e.name root hd)]
            exact hacc
          · simpa [hk] using hacc
      exact hfold _ _ hbase

/-- C9 counterexample: re-arming from root `/a/b` cancels the previously
armed watch on the sibling `/a/bc`, a path that is neither equal to the
root nor a filesystem descendant of it — `startsWith` compares text, not
path components. -/
theorem c9_counterexample :
    lookupW c9st.watchers "/a/bc" = some 7 ∧
    isDescendantOf "/a/bc" "/a/b" = false ∧
    "/a/bc" ≠ "/a/b" ∧
    lookupW (watchFolderRecursive c9fs 1 "/a/b" c9st).watchers "/a/bc" = none := by
  refine ⟨by decide, by decide, by decide, by decide⟩

/-- C9 amended: after `watchFolderRecursive root`, every previously armed
watch whose path does not have `root` as a text head is untouched — same
handle, still present; the cancelled watches are exactly those whose path
extends the text of `root`, which covers the root and its descendants but
also unrelated sibling paths such as `/a/bc` under root `/a/b`. -/
theorem c9_amended (fs : WatchFS) (fuel : Nat) (root : String) (st : WatchState) (p : String)
    (hp : jsStartsWith p root = false) :
    lookupW (watchFolderRecursive fs fuel root st).watchers p = lookupW st.watchers p := by
  unfold watchFolderRecursive
  rw [attach_keeps fs root p hp fuel root _ (jsStartsWith_self root)]
  exact lookupW_filter_keep _ _ _ (fun v => by simp [hp])

/-- C9 witness: the amended theorem applied at the concrete state holding
a watch on the unrelated path `/z` while re-arming from `/a/b`. -/
theorem c9_witness :
    lookupW (watchFolderRecursive c9fs 1 "/a/b" c9wit).watchers "/z" =
      lookupW c9wit.watchers "/z" :=
  c9_amended c9fs 1 "/a/b" c9wit "/z" (by decide)

/-- C10: `readServerSettings` is total — it always returns a settings
record — and it returns the empty record `{}` whenever neither settings
file exists, or reading the persisted file throws, or parsing it throws,
or reading the bundled default throws, or parsing the default throws. -/
theorem c10_total_settings :
    ∀ env : ReadEnv,
      (env.userExists = false → env.defaultExists = false →
        readServerSettings env = emptySettings) ∧
      (env.userExists = true → env.userRead = Except.error () →
        readServerSettings env = emptySettings) ∧
      (∀ d, env.userExists = true → env.userRead = Except.ok d →
        env.parse d = Except.error () → readServerSettings env = emptySettings) ∧
      (env.userExists = false → env.defaultExists = true →
        env.defaultRead = Except.error () → readServerSettings env = emptySettings) ∧
      (∀ d, env.userExists = false → env.defaultExists = true →
        env.defaultRead = Except.ok d → env.parse d = Except.error () →
        readServerSettings env = emptySettings) := by
  intro env
  refine ⟨?_, ?_, ?_, ?_, ?_⟩
  · intro hu hd
    simp [readServerSettings, readSettingsTry, hu, hd, pure, Except.pure]
  · intro hu hr
    simp [readServerSettings, readSettingsTry, hu, hr, Bind.bind, Except.bind]
  · intro d hu hr hp
    simp [readServerSettings, readSettingsTry, hu, hr, hp, Bind.bind, Except.bind]
  · intro hu hd hr
    simp [readServerSettings, readSettingsTry, hu, hd, hr, Bind.bind, Except.bind]
  · intro d hu hd hr hp
    simp [readServerSettings, readSettingsTry, hu, hd, hr, hp, Bind.bind, Except.bind]

/-- C10 witness: applied at the concrete environment in which neither the
persisted nor the bundled settings file exists. -/
theorem c10_witness : readServerSettings c10env = emptySettings :=
  (c10_total_settings c10env).1 rfl rfl
